import Mathlib

/-!
Verification development for the Zenfile (Converzen) batch-conversion core.

The Go sources under `internal/services`, `pkg/ffmpeg` and the application
controller are shallowly embedded as pure Lean functions.  External
collaborators (the filesystem, the ffmpeg subprocess, the image codec
libraries, the persistence store) are modelled as an explicit environment
record of oracle functions; every branch of the embedded functions mirrors a
branch of the Go source.  The persistence store is best-effort in the source
(every repository error is logged and swallowed,
`internal/services/converter_service.go`), so no claim depends on it and it
is not part of the state.  Wall-clock durations are external inputs and are
modelled as zero.
-/

namespace Zenfile

/-! ## String and path helpers

These model the Go standard-library functions used by the sources
(`strings.TrimSuffix`, `strings.TrimPrefix(-, ".")`, `filepath.Base`,
`filepath.Ext`, `filepath.Dir`, `filepath.Join`).  The stdlib is an external
collaborator; the models follow its documented behaviour.  `filepath.Clean`
(pure path normalisation) is modelled as the identity: no claim depends on
path normalisation, and all concrete paths used below are already clean.
-/

/-- Go `strings.TrimSuffix s suf`: drop `suf` from the end of `s` when present. -/
def trimSuffixStr (s suf : String) : String :=
  if suf.data.isSuffixOf s.data then
    String.mk (s.data.take (s.data.length - suf.data.length))
  else s

/-- Go `strings.TrimPrefix s "."`: drop one leading dot when present.  The
sources only ever trim the literal prefix `"."`. -/
def trimLeadingDot (s : String) : String :=
  match s.data with
  | '.' :: rest => String.mk rest
  | _ => s

/-- Go `strings.ToLower` for the ASCII uses in the sources, over the
character list (the byte-position-based core `String.toLower` does not
reduce in the kernel). -/
def toLowerStr (s : String) : String := String.mk (s.data.map Char.toLower)

/-- Characters of the final path element (after the last slash) of a reversed
character list, i.e. a `takeWhile` on the reversal. -/
def revLastElem (cs : List Char) : List Char :=
  cs.takeWhile (fun c => c ≠ '/')

/-- Go `filepath.Base`: trailing slashes removed, then the last element;
`""` gives `"."`, an all-slash path gives `"/"`. -/
def baseOf (p : String) : String :=
  if p.data = [] then "."
  else
    let cs := (p.data.reverse.dropWhile (fun c => c = '/')).reverse
    if cs = [] then "/"
    else String.mk (revLastElem cs.reverse).reverse

/-- Helper for `extOf`: walking the reversed character list, collect the
characters of the extension (through the final dot of the final element);
`none` when a slash or the start of the string is reached first. -/
def extRevAux : List Char → Option (List Char)
  | [] => none
  | c :: cs =>
    if c = '/' then none
    else if c = '.' then some [c]
    else (extRevAux cs).map (fun e => c :: e)

/-- Go `filepath.Ext`: the suffix beginning at the final dot in the final
element of the path; empty when there is no dot. -/
def extOf (p : String) : String :=
  match extRevAux p.data.reverse with
  | some e => String.mk e.reverse
  | none => ""

/-- Go `filepath.Dir`: everything before the final slash (the result is only
ever passed to the abstract `MkdirAll` oracle). -/
def dirOf (p : String) : String :=
  let cs := (p.data.reverse.dropWhile (fun c => c ≠ '/')).reverse
  if cs = [] then "." else String.mk (cs.dropLast ++ [])

/-- Go `filepath.Join dir file` for the two-argument uses in the sources:
non-empty parts joined by a slash (followed by a `Clean`, modelled as the
identity on the already-clean inputs that occur here). -/
def joinPath (d f : String) : String :=
  if d = "" then f else if f = "" then d else d ++ "/" ++ f

/-! ## The `internal/models` package

Modelled from the spec: the `internal/models` Go package is not in the source
tree (only its callers are).  Per spec §3 and §4.1, `FileType` is a string
type with the category constants below, the capability table maps a static
set of video and image extensions to their category, and unknown extensions
map to category Unknown.  The extension sets follow the spec/README format
lists (video: MP4, MOV, WebM, AVI, MKV, M4V; image: PNG, JPG, JPEG, GIF,
BMP, TIFF, TIF, WebP).  Naming-mode constants follow the frontend mirror
types (`original` / `custom`).
-/

def FileTypeVideo : String := "video"

def FileTypeImage : String := "image"

def FileTypeUnknown : String := "unknown"

/-- Modelled from the spec: `models.VideoFormats`, the video extension table. -/
def VideoFormats : List String :=
  [".mp4", ".mov", ".webm", ".avi", ".mkv", ".m4v"]

/-- Modelled from the spec: `models.ImageFormats`, the image extension table. -/
def ImageFormats : List String :=
  [".png", ".jpg", ".jpeg", ".gif", ".bmp", ".tiff", ".tif", ".webp"]

/-- Modelled from the spec: `models.GetFileType` resolves an extension to its
category; unknown extensions map to category Unknown (spec §4.1). -/
def GetFileType (ext : String) : String :=
  if ext ∈ VideoFormats then FileTypeVideo
  else if ext ∈ ImageFormats then FileTypeImage
  else FileTypeUnknown

def NamingModeOriginal : String := "original"

def NamingModeCustom : String := "custom"

/-! ## Data model (spec §3, mirrored from the Go structs) -/

structure FileInfo where
  path : String
  name : String
  extension : String
  size : Int
  type : String
  deriving DecidableEq, Repr

structure ConversionJob where
  inputPath : String
  outputPath : String
  outputFormat : String
  overwriteOutput : Bool
  deriving DecidableEq, Repr

structure ConversionResult where
  success : Bool
  inputPath : String
  outputPath : String
  outputSize : Int
  errorMessage : String
  duration : Int
  deriving DecidableEq, Repr

structure BatchConversionRequest where
  files : List String
  outputFormat : String
  outputDirectory : String
  namingMode : String
  customNames : List String
  makeCopies : Bool
  deriving DecidableEq, Repr

structure BatchConversionResult where
  totalFiles : Nat
  successCount : Nat
  failCount : Nat
  results : List ConversionResult
  totalDuration : Int
  deriving DecidableEq, Repr

/-- `ffmpeg.ConvertOptions` (pkg/ffmpeg/ffmpeg.go). -/
structure ConvertOptions where
  inputPath : String
  outputPath : String
  overwrite : Bool
  videoCodec : String
  videoBitrate : String
  resolution : String
  frameRate : Int
  audioCodec : String
  audioBitrate : String
  sampleRate : Int
  deriving DecidableEq, Repr

/-! ## Environment: external collaborators as oracles -/

/-- Outcome of Go `os.Stat` on a path: the entry is missing
(`os.IsNotExist`), stat failed for another reason, or the entry exists with
a directory flag and a size. -/
inductive StatRes where
  | missing : StatRes
  | statErr : String → StatRes
  | entry : Bool → Int → StatRes
  deriving DecidableEq, Repr

/-- The external world as observed by one batch run: filesystem queries,
subprocess invocations keyed by their argument list, and image codec
outcomes keyed by path.  `stat` observes the filesystem before any output is
produced; `sizeAfter` observes an output file's size after a conversion. -/
structure Env where
  stat : String → StatRes
  mkdirOk : String → Bool
  probedDuration : String → Option ℚ
  runRes : List String → Option String
  runLines : List String → List String
  sizeAfter : String → Option Int
  openRes : String → Option String
  decodeRes : String → Option String
  createRes : String → Option String
  encodeRes : String → Option String

/-- Go `err == nil` on an `os.Stat` call: the path exists (file or dir). -/
def statOk (env : Env) (p : String) : Bool :=
  match env.stat p with
  | StatRes.entry _ _ => true
  | _ => false

/-! ## File service (`internal/services/file_service.go`) -/

/-- `fileServiceImpl.GetFileInfo`: stat the path, reject directories, resolve
the category from the lower-cased extension.  (`filepath.Clean` is modelled
as the identity, see the header note.) -/
def getFileInfo (env : Env) (path : String) : Except String FileInfo :=
  match env.stat path with
  | StatRes.missing => Except.error ("file not found: " ++ path)
  | StatRes.statErr m => Except.error ("failed to access file: " ++ m)
  | StatRes.entry isDir size =>
    if isDir then Except.error ("path is a directory, not a file: " ++ path)
    else
      let ext := toLowerStr (extOf path)
      Except.ok
        { path := path
          name := baseOf path
          extension := ext
          size := size
          type := GetFileType ext }

/-- The loop body state of `ValidateFiles`: the `files` and `errors` slices
and the `firstType` variable (zero value `""`). -/
def validateScanAux (env : Env) :
    Nat → List String → List FileInfo × List String × String →
    List FileInfo × List String × String
  | _, [], acc => acc
  | i, p :: rest, (files, errs, firstType) =>
    match getFileInfo env p with
    | Except.error e =>
      validateScanAux env (i + 1) rest
        (files, errs ++ [baseOf p ++ ": " ++ e], firstType)
    | Except.ok info =>
      if info.type = FileTypeUnknown then
        validateScanAux env (i + 1) rest
          (files, errs ++ [info.name ++ ": unsupported file format"], firstType)
      else if i = 0 then
        validateScanAux env (i + 1) rest (files ++ [info], errs, info.type)
      else if info.type ≠ firstType then
        validateScanAux env (i + 1) rest
          (files,
           errs ++ [info.name ++ ": mixed file types not allowed (expected "
              ++ firstType ++ ", got " ++ info.type ++ ")"],
           firstType)
      else
        validateScanAux env (i + 1) rest (files ++ [info], errs, firstType)

/-- `fileServiceImpl.ValidateFiles`: empty input is rejected up front; the
scan accumulates valid infos and per-path error strings; the call errors
exactly when no file validated (the per-path messages are then joined into
the returned error, otherwise they are only logged). -/
def validateFiles (env : Env) (paths : List String) : Except String (List FileInfo) :=
  if paths.isEmpty then Except.error "no files provided"
  else
    let scan := validateScanAux env 0 paths ([], [], "")
    if scan.1.isEmpty then
      Except.error ("no valid files found: " ++ String.intercalate "; " scan.2.1)
    else Except.ok scan.1

/-- `fileServiceImpl.GenerateOutputPath`: the base name is the custom name in
custom naming mode when non-empty, otherwise the input file name with its
extension stripped; the final path joins the output directory with
`baseName ++ "." ++ format` after stripping a leading dot from the format. -/
def generateOutputPath (inputPath outputDir outputFormat namingMode customName : String) :
    String :=
  let stripped := trimSuffixStr (baseOf inputPath) (extOf inputPath)
  let baseName :=
    if namingMode = NamingModeCustom then
      if customName ≠ "" then customName else stripped
    else stripped
  let fmt := trimLeadingDot outputFormat
  joinPath outputDir (baseName ++ "." ++ fmt)

/-! ## FFmpeg wrapper (`pkg/ffmpeg/ffmpeg.go`) -/

/-- The literal matched by the progress regex `out_time_ms=(\d+)`. -/
def outTimeMarker : List Char := "out_time_ms=".data

/-- Value of a digit run. -/
def digitsToNat (ds : List Char) : Nat :=
  ds.foldl (fun a c => a * 10 + (c.toNat - '0'.toNat)) 0

/-- Leftmost match of `out_time_ms=(\d+)` in a character list: find an
occurrence of the marker followed by at least one digit and return the value
of the maximal digit run (the regex submatch). -/
def scanOutTime : List Char → Option Nat
  | [] => none
  | c :: cs =>
    if outTimeMarker.isPrefixOf (c :: cs) then
      let ds := ((c :: cs).drop outTimeMarker.length).takeWhile Char.isDigit
      if ds.isEmpty then scanOutTime cs else some (digitsToNat ds)
    else scanOutTime cs

/-- Parse one progress line: the integer captured by `out_time_ms=(\d+)`,
when the line matches. -/
def parseOutTimeMs (line : String) : Option Nat := scanOutTime line.data

/-- The clamp in the progress loop: `if progress > 100 { progress = 100 }`. -/
def clamp100 (q : ℚ) : ℚ := if q > 100 then 100 else q

/-- Progress value computed for one matched line: microseconds to seconds,
divided by the probed duration, times 100, clamped at 100.  Go float64
arithmetic is modelled over ℚ; the claims only concern order and bounds,
which the rational model preserves. -/
def lineProgress (duration : ℚ) (t : Nat) : ℚ :=
  clamp100 (((t : ℚ) / 1000000) / duration * 100)

/-- The sequence of progress-callback values produced by the stdout scanner
for a given probed duration and stdout line stream. -/
def ffmpegProgressSeq (duration : ℚ) (lines : List String) : List ℚ :=
  (lines.filterMap parseOutTimeMs).map (lineProgress duration)

/-- `ffmpeg.GetDefaultCodec`: static video/audio codec pair per normalized
target format; unrecognized targets yield empty strings (no explicit codec). -/
def GetDefaultCodec (format : String) : String × String :=
  let f := trimLeadingDot (toLowerStr format)
  if f = "mp4" then ("libx264", "aac")
  else if f = "webm" then ("libvpx-vp9", "libopus")
  else if f = "avi" then ("mpeg4", "mp3")
  else if f = "mkv" then ("libx264", "aac")
  else if f = "mov" then ("libx264", "aac")
  else ("", "")

/-- The argument list built by `ffmpeg.Convert`: the overwrite flag first
(`-y` or `-n`), the input, then each codec/bitrate/resolution/rate option
only when set, the machine-readable progress request, and the output path. -/
def convertArgs (o : ConvertOptions) : List String :=
  let args := ["-i", o.inputPath]
  let args := (if o.overwrite then ["-y"] else ["-n"]) ++ args
  let args := args ++ (if o.videoCodec ≠ "" then ["-c:v", o.videoCodec] else [])
  let args := args ++ (if o.videoBitrate ≠ "" then ["-b:v", o.videoBitrate] else [])
  let args := args ++ (if o.resolution ≠ "" then ["-s", o.resolution] else [])
  let args := args ++ (if o.frameRate > 0 then ["-r", toString o.frameRate] else [])
  let args := args ++ (if o.audioCodec ≠ "" then ["-c:a", o.audioCodec] else [])
  let args := args ++ (if o.audioBitrate ≠ "" then ["-b:a", o.audioBitrate] else [])
  let args := args ++ (if o.sampleRate > 0 then ["-ar", toString o.sampleRate] else [])
  args ++ ["-progress", "pipe:1", "-nostats", o.outputPath]

/-- The two-pass palette filter graph used by `ffmpeg.ConvertToGif`. -/
def gifFilter : String :=
  "fps=10,scale=480:-1:flags=lanczos,split[s0][s1];[s0]palettegen[p];[s1][p]paletteuse"

/-- The argument list built by `ffmpeg.ConvertToGif`: optional `-y`, the
input, the palette filter graph, loop forever, the progress request, and the
output path (no codec options). -/
def gifArgs (input output : String) (overwrite : Bool) : List String :=
  (if overwrite then ["-y"] else []) ++
    ["-i", input, "-vf", gifFilter, "-loop", "0",
     "-progress", "pipe:1", "-nostats", output]

/-- `ffmpeg.Convert`: probe the duration (an unparsable probe disables
progress reporting, `duration = 0`), run the subprocess with `convertArgs`,
emit one scanner callback per matched stdout line while the duration is
positive, and on success emit one final callback with 100.  Returns the
error (with the source's `conversion failed:` wrap) and the full callback
sequence.  The service always passes a non-nil callback. -/
def ffmpegConvertRun (env : Env) (o : ConvertOptions) : Option String × List ℚ :=
  let duration := (env.probedDuration o.inputPath).getD 0
  let args := convertArgs o
  let seq := if duration > 0 then ffmpegProgressSeq duration (env.runLines args) else []
  match env.runRes args with
  | some msg => (some ("conversion failed: " ++ msg), seq)
  | none => (none, seq ++ [100])

/-- `ffmpeg.ConvertToGif`: same probe/scan/final-callback scheme with the
palette argument list and the `GIF conversion failed:` error wrap. -/
def ffmpegGifRun (env : Env) (input output : String) (overwrite : Bool) :
    Option String × List ℚ :=
  let duration := (env.probedDuration input).getD 0
  let args := gifArgs input output overwrite
  let seq := if duration > 0 then ffmpegProgressSeq duration (env.runLines args) else []
  match env.runRes args with
  | some msg => (some ("GIF conversion failed: " ++ msg), seq)
  | none => (none, seq ++ [100])

/-! ## Converter adapters -/

/-- The `ConversionResult` both adapters initialize before any check. -/
def baseResult (job : ConversionJob) : ConversionResult :=
  { success := false
    inputPath := job.inputPath
    outputPath := job.outputPath
    outputSize := 0
    errorMessage := ""
    duration := 0 }

/-- Outcome of the FFmpeg video adapter: the result struct, the returned
error, and the argument lists of the transcoder invocations it performed. -/
structure VideoOutcome where
  result : ConversionResult
  err : Option String
  calls : List (List String)
  deriving DecidableEq, Repr

/-- The `ConvertOptions` the video adapter builds for a non-GIF target: the
default codec pair for the normalized output extension, every other option
left at its zero value. -/
def videoOpts (job : ConversionJob) : ConvertOptions :=
  let fmt := trimLeadingDot (toLowerStr (extOf job.outputPath))
  let codecs := GetDefaultCodec fmt
  { inputPath := job.inputPath
    outputPath := job.outputPath
    overwrite := job.overwriteOutput
    videoCodec := codecs.1
    videoBitrate := ""
    resolution := ""
    frameRate := 0
    audioCodec := codecs.2
    audioBitrate := ""
    sampleRate := 0 }

/-- `ffmpegVideoConverter.Convert`
(`internal/services/video_converter_ffmpeg.go`): check the input exists,
create the output directory, fail with an already-exists error when
overwrite is disabled and the output path is present, then dispatch to the
GIF palette path or the generic codec path.  Wall-clock duration is external
and modelled as 0. -/
def videoConvert (env : Env) (job : ConversionJob) : VideoOutcome :=
  let r := baseResult job
  if env.stat job.inputPath = StatRes.missing then
    let m := "Input file not found: " ++ job.inputPath
    ⟨{ r with errorMessage := m }, some m, []⟩
  else if !(env.mkdirOk (dirOf job.outputPath)) then
    let m := "Failed to create output directory"
    ⟨{ r with errorMessage := m }, some m, []⟩
  else if !job.overwriteOutput && statOk env job.outputPath then
    let m := "Output file already exists: " ++ job.outputPath
    ⟨{ r with errorMessage := m }, some m, []⟩
  else
    let fmt := trimLeadingDot (toLowerStr (extOf job.outputPath))
    if fmt = "gif" then
      let args := gifArgs job.inputPath job.outputPath job.overwriteOutput
      match ffmpegGifRun env job.inputPath job.outputPath job.overwriteOutput with
      | (some e, _) => ⟨{ r with errorMessage := e }, some e, [args]⟩
      | (none, _) =>
        ⟨{ r with success := true, outputSize := (env.sizeAfter job.outputPath).getD 0 }, none, [args]⟩
    else
      let o := videoOpts job
      match ffmpegConvertRun env o with
      | (some e, _) => ⟨{ r with errorMessage := e }, some e, [convertArgs o]⟩
      | (none, _) =>
        ⟨{ r with success := true, outputSize := (env.sizeAfter job.outputPath).getD 0 }, none, [convertArgs o]⟩

/-- Outcome of the image adapter: the result struct, the returned error, and
whether an encoder was invoked. -/
structure ImageOutcome where
  result : ConversionResult
  err : Option String
  encodeInvoked : Bool
  deriving DecidableEq, Repr

/-- The encodable output formats of the image converter's encode switch
(`webp` is a dedicated unsupported case, everything else falls to the
unsupported default). -/
def imageOutputValid : List String := ["png", "jpg", "jpeg", "gif", "bmp", "tiff", "tif"]

/-- `imageConverter.Convert` (`internal/services/image_converter.go`): open
the input, decode it (the decoder is dispatched on the input extension; the
codec outcome is abstracted per input path), create the output directory,
fail with an already-exists error when overwrite is disabled and the output
path is present, create the output file, then encode by output format.  The
intermediate 10/20/50/70/100 progress callbacks only write through to the
best-effort store and are not modelled. -/
def imageConvert (env : Env) (job : ConversionJob) : ImageOutcome :=
  let r := baseResult job
  match env.openRes job.inputPath with
  | some e =>
    let m := "Failed to open input file: " ++ e
    ⟨{ r with errorMessage := m }, some m, false⟩
  | none =>
  match env.decodeRes job.inputPath with
  | some e =>
    let m := "Failed to decode image: " ++ e
    ⟨{ r with errorMessage := m }, some m, false⟩
  | none =>
  if !(env.mkdirOk (dirOf job.outputPath)) then
    let m := "Failed to create output directory"
    ⟨{ r with errorMessage := m }, some m, false⟩
  else if !job.overwriteOutput && statOk env job.outputPath then
    let m := "Output file already exists: " ++ job.outputPath
    ⟨{ r with errorMessage := m }, some m, false⟩
  else
  match env.createRes job.outputPath with
  | some e =>
    let m := "Failed to create output file: " ++ e
    ⟨{ r with errorMessage := m }, some m, false⟩
  | none =>
    let fmt := toLowerStr (trimLeadingDot (extOf job.outputPath))
    if fmt = "webp" then
      let m := "WebP encoding is not supported as output format"
      ⟨{ r with errorMessage := m }, some m, false⟩
    else if fmt ∈ imageOutputValid then
      match env.encodeRes job.outputPath with
      | some e =>
        let m := "Failed to encode image: " ++ e
        ⟨{ r with errorMessage := m }, some m, true⟩
      | none =>
        ⟨{ r with success := true, outputSize := (env.sizeAfter job.outputPath).getD 0 }, none, true⟩
    else
      let m := "Unsupported output format: " ++ fmt
      ⟨{ r with errorMessage := m }, some m, false⟩

/-! ## Conversion orchestrator (`internal/services/converter_service.go`) -/

/-- `conversionServiceImpl.ConvertFile`: resolve the file info, create the
best-effort store record (errors logged and swallowed), dispatch to the
adapter selected by category, and return the adapter's result or error. -/
def convertFile (env : Env) (job : ConversionJob) : Except String ConversionResult :=
  match getFileInfo env job.inputPath with
  | Except.error e => Except.error e
  | Except.ok info =>
    if info.type = FileTypeVideo then
      match (videoConvert env job).err with
      | some e => Except.error e
      | none => Except.ok (videoConvert env job).result
    else if info.type = FileTypeImage then
      match (imageConvert env job).err with
      | some e => Except.error e
      | none => Except.ok (imageConvert env job).result
    else Except.error ("unsupported file type: " ++ info.type)

/-- The `ConversionJob` built for the item at index `i` of a batch: the
custom name applies in custom naming mode when in range, `OverwriteOutput`
is initialized to the negation of `MakeCopies` and then forced to `true`
when `MakeCopies` is set. -/
def batchJob (req : BatchConversionRequest) (i : Nat) (inputPath : String) :
    ConversionJob :=
  let customName :=
    if req.namingMode = NamingModeCustom ∧ i < req.customNames.length then
      req.customNames.getD i ""
    else ""
  let outputPath :=
    generateOutputPath inputPath req.outputDirectory req.outputFormat
      req.namingMode customName
  let job : ConversionJob :=
    { inputPath := inputPath
      outputPath := outputPath
      outputFormat := req.outputFormat
      overwriteOutput := !req.makeCopies }
  if req.makeCopies then { job with overwriteOutput := true } else job

/-- The loop body of `ConvertBatch` for the item at index `i`: a failed
pre-validation yields a failure result with only the input path and error
set; a failed conversion yields a failure result with input path, output
path and error; a successful conversion records the adapter's result.  The
Bool is `true` exactly when the item counted as a success. -/
def itemOutcome (env : Env) (req : BatchConversionRequest) (i : Nat)
    (inputPath : String) : ConversionResult × Bool :=
  match getFileInfo env inputPath with
  | Except.error e =>
    ({ success := false, inputPath := inputPath, outputPath := "",
       outputSize := 0, errorMessage := e, duration := 0 }, false)
  | Except.ok _ =>
    let job := batchJob req i inputPath
    match convertFile env job with
    | Except.error e =>
      ({ success := false, inputPath := inputPath, outputPath := job.outputPath,
         outputSize := 0, errorMessage := e, duration := 0 }, false)
    | Except.ok r => (r, true)

/-- The `ConvertBatch` loop over the remaining files, starting at index `i`,
threading the aggregate result.  The per-item overall-progress callback only
emits an event to the presentation layer and is not part of the result. -/
def convertBatchAux (env : Env) (req : BatchConversionRequest) :
    Nat → List String → BatchConversionResult → BatchConversionResult
  | _, [], acc => acc
  | i, p :: rest, acc =>
    let step := itemOutcome env req i p
    convertBatchAux env req (i + 1) rest
      { acc with
        results := acc.results ++ [step.1]
        successCount := acc.successCount + (if step.2 then 1 else 0)
        failCount := acc.failCount + (if step.2 then 0 else 1) }

/-- The `BatchConversionResult` computed by `ConvertBatch`: `TotalFiles` is
fixed up front, counters start at zero, items are processed in submission
order.  Total wall-clock duration is external and modelled as 0. -/
def convertBatchRes (env : Env) (req : BatchConversionRequest) :
    BatchConversionResult :=
  convertBatchAux env req 0 req.files
    { totalFiles := req.files.length
      successCount := 0
      failCount := 0
      results := []
      totalDuration := 0 }

/-- `conversionServiceImpl.ConvertBatch` with its full Go signature
`(*BatchConversionResult, error)`: the body has a single return site
`return result, nil`, so the error slot is always nil. -/
def convertBatch (env : Env) (req : BatchConversionRequest) :
    Except String BatchConversionResult :=
  Except.ok (convertBatchRes env req)

/-! ## Cancellation registry -/

/-- The mutex-guarded service state: the key set of the
`activeConversions map[uint]context.CancelFunc` map (the stored
`CancelFunc` values trigger external process cancellation and carry no
modelled data). -/
structure ServiceState where
  activeConversions : List Nat
  deriving DecidableEq, Repr

/-- `NewConversionService` creates the registry empty. -/
def initialState : ServiceState := ⟨[]⟩

/-- `conversionServiceImpl.CancelConversion`: when the id is registered,
invoke the trigger, delete the entry and mark the store record cancelled
(best-effort, external); otherwise return the not-found error.  The function
is total: no input makes it panic. -/
def cancelConversion (s : ServiceState) (id : Nat) :
    ServiceState × Except String Unit :=
  if id ∈ s.activeConversions then
    (⟨s.activeConversions.filter (fun k => k ≠ id)⟩, Except.ok ())
  else
    (s, Except.error ("conversion " ++ toString id ++ " not found or already completed"))

/-- `ConvertFile` as a service operation: its body never reads or writes
`activeConversions`, so the state passes through unchanged. -/
def convertFileSvc (env : Env) (s : ServiceState) (job : ConversionJob) :
    ServiceState × Except String ConversionResult :=
  (s, convertFile env job)

/-- `ConvertBatch` as a service operation: its body never reads or writes
`activeConversions`, so the state passes through unchanged. -/
def convertBatchSvc (env : Env) (s : ServiceState) (req : BatchConversionRequest) :
    ServiceState × Except String BatchConversionResult :=
  (s, convertBatch env req)

/-- Public operations of the conversion service that touch the service
value. -/
inductive SvcOp where
  | batch : BatchConversionRequest → SvcOp
  | single : ConversionJob → SvcOp
  | cancel : Nat → SvcOp
  deriving Repr

/-- State transition of one service operation. -/
def runOp (env : Env) (s : ServiceState) : SvcOp → ServiceState
  | SvcOp.batch req => (convertBatchSvc env s req).1
  | SvcOp.single job => (convertFileSvc env s job).1
  | SvcOp.cancel id => (cancelConversion s id).1

/-- State after a sequence of service operations from the freshly
constructed service. -/
def runOps (env : Env) (ops : List SvcOp) : ServiceState :=
  ops.foldl (runOp env) initialState

/-! ## Structural lemmas -/


theorem videoConvert_inputPath (env : Env) (job : ConversionJob) :
    (videoConvert env job).result.inputPath = job.inputPath := by
  unfold videoConvert
  dsimp only
  split
  · rfl
  split
  · rfl
  split
  · rfl
  split
  · split <;> rfl
  · split <;> rfl

theorem imageConvert_inputPath (env : Env) (job : ConversionJob) :
    (imageConvert env job).result.inputPath = job.inputPath := by
  unfold imageConvert
  dsimp only
  split
  · rfl
  split
  · rfl
  split
  · rfl
  split
  · rfl
  split
  · rfl
  split
  · rfl
  split
  · split <;> rfl
  · rfl



theorem batchJob_inputPath (req : BatchConversionRequest) (i : Nat) (p : String) :
    (batchJob req i p).inputPath = p := by
  unfold batchJob
  dsimp only
  split <;> rfl

theorem convertFile_ok_inputPath (env : Env) (job : ConversionJob)
    (r : ConversionResult) (h : convertFile env job = Except.ok r) :
    r.inputPath = job.inputPath := by
  unfold convertFile at h
  split at h
  · exact absurd h (by simp)
  · split at h
    · split at h
      · exact absurd h (by simp)
      · cases h
        exact videoConvert_inputPath env job
    · split at h
      · split at h
        · exact absurd h (by simp)
        · cases h
          exact imageConvert_inputPath env job
      · exact absurd h (by simp)

theorem itemOutcome_inputPath (env : Env) (req : BatchConversionRequest)
    (i : Nat) (p : String) :
    (itemOutcome env req i p).1.inputPath = p := by
  unfold itemOutcome
  split
  · rfl
  · dsimp only
    split
    · rfl
    case _ r heq =>
      exact (convertFile_ok_inputPath env _ r heq).trans (batchJob_inputPath req i p)

/-- The per-item results the batch loop appends from index `i` over the
remaining paths. -/
def itemResultsFrom (env : Env) (req : BatchConversionRequest) :
    Nat → List String → List ConversionResult
  | _, [] => []
  | i, p :: rest => (itemOutcome env req i p).1 :: itemResultsFrom env req (i + 1) rest

theorem convertBatchAux_totalFiles (env : Env) (req : BatchConversionRequest) :
    ∀ (ps : List String) (i : Nat) (acc : BatchConversionResult),
      (convertBatchAux env req i ps acc).totalFiles = acc.totalFiles := by
  intro ps
  induction ps with
  | nil => intro i acc; rfl
  | cons p rest ih => intro i acc; rw [convertBatchAux, ih]

theorem convertBatchAux_results (env : Env) (req : BatchConversionRequest) :
    ∀ (ps : List String) (i : Nat) (acc : BatchConversionResult),
      (convertBatchAux env req i ps acc).results
        = acc.results ++ itemResultsFrom env req i ps := by
  intro ps
  induction ps with
  | nil => intro i acc; simp [convertBatchAux, itemResultsFrom]
  | cons p rest ih =>
    intro i acc
    rw [convertBatchAux, ih]
    simp [itemResultsFrom]

theorem convertBatchAux_counts (env : Env) (req : BatchConversionRequest) :
    ∀ (ps : List String) (i : Nat) (acc : BatchConversionResult),
      (convertBatchAux env req i ps acc).successCount
          + (convertBatchAux env req i ps acc).failCount
        = acc.successCount + acc.failCount + ps.length := by
  intro ps
  induction ps with
  | nil => intro i acc; simp [convertBatchAux]
  | cons p rest ih =>
    intro i acc
    rw [convertBatchAux, ih]
    dsimp only
    cases (itemOutcome env req i p).2 <;> simp <;> omega

theorem itemResultsFrom_length (env : Env) (req : BatchConversionRequest) :
    ∀ (ps : List String) (i : Nat),
      (itemResultsFrom env req i ps).length = ps.length := by
  intro ps
  induction ps with
  | nil => intro i; rfl
  | cons p rest ih => intro i; simp [itemResultsFrom, ih]

/-- The default result used with `List.getD`: its input path is empty, the
default of `List.getD` on the path list. -/
def dummyResult : ConversionResult :=
  { success := false, inputPath := "", outputPath := "", outputSize := 0,
    errorMessage := "", duration := 0 }

theorem itemResultsFrom_getD_inputPath (env : Env) (req : BatchConversionRequest) :
    ∀ (ps : List String) (i j : Nat),
      ((itemResultsFrom env req i ps).getD j dummyResult).inputPath
        = ps.getD j "" := by
  intro ps
  induction ps with
  | nil => intro i j; rfl
  | cons p rest ih =>
    intro i j
    cases j with
    | zero => simpa [itemResultsFrom] using itemOutcome_inputPath env req i p
    | succ j => simpa [itemResultsFrom] using ih (i + 1) j

theorem itemResultsFrom_getD (env : Env) (req : BatchConversionRequest) :
    ∀ (ps : List String) (i j : Nat), j < ps.length →
      (itemResultsFrom env req i ps).getD j dummyResult
        = (itemOutcome env req (i + j) (ps.getD j "")).1 := by
  intro ps
  induction ps with
  | nil => intro i j h; simp at h
  | cons p rest ih =>
    intro i j h
    cases j with
    | zero =>
      simp only [itemResultsFrom, List.getD, List.get?_cons_zero, Option.getD_some,
        Nat.add_zero]
    | succ j =>
      have := ih (i + 1) j (by simpa using Nat.lt_of_succ_lt_succ h)
      simp only [itemResultsFrom, List.getD, List.get?_cons_succ] at this ⊢
      rw [this]
      have harith : i + 1 + j = i + (j + 1) := by omega
      rw [harith]



theorem batch_results_getD (env : Env) (req : BatchConversionRequest)
    (j : Nat) (h : j < req.files.length) :
    (convertBatchRes env req).results.getD j dummyResult
      = (itemOutcome env req j (req.files.getD j "")).1 := by
  unfold convertBatchRes
  rw [convertBatchAux_results]
  have := itemResultsFrom_getD env req req.files 0 j h
  simpa using this

theorem itemOutcome_fail_success (env : Env) (req : BatchConversionRequest)
    (i : Nat) (p : String) (h : (itemOutcome env req i p).2 = false) :
    (itemOutcome env req i p).1.success = false := by
  unfold itemOutcome at h ⊢
  split at h
  · rfl
  · dsimp only at h ⊢
    split at h
    · rfl
    · exact absurd h (by simp)

/-! ## Concrete demonstration world

A concrete environment used by the witness and counterexample theorems: the
path `"bad"` does not exist, every other path is a 100-byte plain file,
directory creation and subprocess runs succeed, the input `"/in/over.mp4"`
produces a progress line beyond the probed duration, every other run
produces one mid-stream progress line. -/

/-- Decidable equality on `Except`, used by the concrete evaluations. -/
instance {e a : Type} [DecidableEq e] [DecidableEq a] : DecidableEq (Except e a) :=
  fun x y =>
    match x, y with
    | Except.error u, Except.error v =>
      if h : u = v then Decidable.isTrue (by rw [h])
      else Decidable.isFalse (by intro hc; cases hc; exact h rfl)
    | Except.error _, Except.ok _ => Decidable.isFalse (by intro hc; cases hc)
    | Except.ok _, Except.error _ => Decidable.isFalse (by intro hc; cases hc)
    | Except.ok u, Except.ok v =>
      if h : u = v then Decidable.isTrue (by rw [h])
      else Decidable.isFalse (by intro hc; cases hc; exact h rfl)

def demoEnv : Env :=
  { stat := fun p => if p = "bad" then StatRes.missing else StatRes.entry false 100
    mkdirOk := fun _ => true
    probedDuration := fun _ => some 2
    runRes := fun _ => none
    runLines := fun args =>
      if "/in/over.mp4" ∈ args then ["out_time_ms=4000000"] else ["out_time_ms=1000000"]
    sizeAfter := fun _ => some 5
    openRes := fun _ => none
    decodeRes := fun _ => none
    createRes := fun _ => none
    encodeRes := fun _ => none }

/-! ## Claim theorems -/

/-- C1: for every batch conversion request, the returned
`BatchConversionResult` satisfies `SuccessCount + FailCount = TotalFiles`,
`TotalFiles` is the number of input paths, `len(Results) = TotalFiles`, and
the i-th `ConversionResult` carries the i-th input path of the request
(results in submission order; out-of-range indices compare defaults). -/
theorem claim_c1_batch_counts_and_order (env : Env) (req : BatchConversionRequest) :
    (convertBatchRes env req).successCount + (convertBatchRes env req).failCount
        = (convertBatchRes env req).totalFiles ∧
    (convertBatchRes env req).totalFiles = req.files.length ∧
    (convertBatchRes env req).results.length = (convertBatchRes env req).totalFiles ∧
    ∀ i : Nat, ((convertBatchRes env req).results.getD i dummyResult).inputPath
        = req.files.getD i "" := by
  refine ⟨?_, ?_, ?_, ?_⟩
  · unfold convertBatchRes
    rw [convertBatchAux_counts, convertBatchAux_totalFiles]
    simp
  · unfold convertBatchRes
    rw [convertBatchAux_totalFiles]
  · unfold convertBatchRes
    rw [convertBatchAux_results, convertBatchAux_totalFiles]
    simp [itemResultsFrom_length]
  · intro i
    unfold convertBatchRes
    rw [convertBatchAux_results]
    simpa using itemResultsFrom_getD_inputPath env req req.files 0 i

/-- C5: every `ConversionJob` constructed by the batch loop has
`OverwriteOutput = true`: the flag is initialized to the negation of
`MakeCopies` and then forced to `true` when `MakeCopies` is set, so both
branches yield `true`. -/
theorem claim_c5_overwrite_always_true (req : BatchConversionRequest)
    (i : Nat) (p : String) :
    (batchJob req i p).overwriteOutput = true := by
  unfold batchJob
  dsimp only
  cases h : req.makeCopies <;> simp [h]

/-- C10 (amended): per-item validation and conversion errors are captured
into that item's `ConversionResult` and never abort the batch; `ConvertBatch`
itself never returns an error — its only return site is `return result, nil`
— so even structural oddities such as an empty input list yield a (trivial)
`BatchConversionResult`, not an error. -/
theorem claim_c10_batch_never_errors (env : Env) (req : BatchConversionRequest) :
    convertBatch env req = Except.ok (convertBatchRes env req) ∧
    (∀ j, j < req.files.length →
      (convertBatchRes env req).results.getD j dummyResult
          = (itemOutcome env req j (req.files.getD j "")).1 ∧
      ((itemOutcome env req j (req.files.getD j "")).2 = false →
        ((convertBatchRes env req).results.getD j dummyResult).success = false)) := by
  refine ⟨rfl, fun j hj => ⟨batch_results_getD env req j hj, fun hf => ?_⟩⟩
  rw [batch_results_getD env req j hj]
  exact itemOutcome_fail_success env req j _ hf

/-- C10 counterexample: the claim as stated says an empty input file list
makes the whole batch call return an error; on the code the empty list
yields a successful empty `BatchConversionResult` and a nil error. -/
theorem claim_c10_counterexample :
    convertBatch demoEnv
        { files := [], outputFormat := "mp4", outputDirectory := "/out",
          namingMode := NamingModeOriginal, customNames := [], makeCopies := false }
      = Except.ok
          { totalFiles := 0, successCount := 0, failCount := 0,
            results := [], totalDuration := 0 } := rfl

/-- C10 witness: the amended theorem applied to a concrete request whose
first path is missing: the batch call still succeeds and the failed item is
recorded in its own slot. -/
theorem claim_c10_witness :
    convertBatch demoEnv
        { files := ["bad"], outputFormat := "mp4", outputDirectory := "/out",
          namingMode := NamingModeOriginal, customNames := [], makeCopies := false }
      = Except.ok
          (convertBatchRes demoEnv
            { files := ["bad"], outputFormat := "mp4", outputDirectory := "/out",
              namingMode := NamingModeOriginal, customNames := [], makeCopies := false }) ∧
    ((convertBatchRes demoEnv
        { files := ["bad"], outputFormat := "mp4", outputDirectory := "/out",
          namingMode := NamingModeOriginal, customNames := [], makeCopies := false }).results.getD
        0 dummyResult).success = false := by
  have h := claim_c10_batch_never_errors demoEnv
    { files := ["bad"], outputFormat := "mp4", outputDirectory := "/out",
      namingMode := NamingModeOriginal, customNames := [], makeCopies := false }
  refine ⟨h.1, ?_⟩
  exact (h.2 0 (by decide)).2 (by decide)


/-- C4: with overwrite disabled and the planned output path already present,
an otherwise-convertible item fails in the adapter with the already-exists
error before any transcoder invocation (the video adapter performs no
ffmpeg call, the image adapter invokes no encoder), and every other item of
a batch is unaffected: each recorded batch result is a function of that
item's own index and path alone. -/
theorem claim_c4_already_exists_blocks_item (env : Env) (job : ConversionJob)
    (hov : job.overwriteOutput = false)
    (hex : statOk env job.outputPath = true) :
    (env.stat job.inputPath ≠ StatRes.missing →
      env.mkdirOk (dirOf job.outputPath) = true →
      (videoConvert env job).err = some ("Output file already exists: " ++ job.outputPath) ∧
      (videoConvert env job).calls = []) ∧
    (env.openRes job.inputPath = none →
      env.decodeRes job.inputPath = none →
      env.mkdirOk (dirOf job.outputPath) = true →
      (imageConvert env job).err = some ("Output file already exists: " ++ job.outputPath) ∧
      (imageConvert env job).encodeInvoked = false) ∧
    (∀ (req : BatchConversionRequest) (j : Nat), j < req.files.length →
      (convertBatchRes env req).results.getD j dummyResult
        = (itemOutcome env req j (req.files.getD j "")).1) := by
  refine ⟨fun hin hmk => ?_, fun hop hdec hmk => ?_, fun req j hj => batch_results_getD env req j hj⟩
  · unfold videoConvert
    rw [if_neg hin]
    rw [if_neg (by simp [hmk])]
    rw [if_pos (by simp [hov, hex])]
    exact ⟨rfl, rfl⟩
  · unfold imageConvert
    rw [hop]
    rw [hdec]
    dsimp only
    rw [if_neg (by simp [hmk])]
    rw [if_pos (by simp [hov, hex])]
    exact ⟨rfl, rfl⟩

/-- C4 witness: the theorem applied to a concrete job whose output path is
present while overwrite is disabled, in the demonstration world. -/
theorem claim_c4_witness :
    (videoConvert demoEnv
        { inputPath := "/in/a.mp4", outputPath := "/out/a.mp4",
          outputFormat := "mp4", overwriteOutput := false }).err
      = some "Output file already exists: /out/a.mp4" ∧
    (videoConvert demoEnv
        { inputPath := "/in/a.mp4", outputPath := "/out/a.mp4",
          outputFormat := "mp4", overwriteOutput := false }).calls = [] ∧
    (imageConvert demoEnv
        { inputPath := "/in/a.mp4", outputPath := "/out/a.mp4",
          outputFormat := "mp4", overwriteOutput := false }).err
      = some "Output file already exists: /out/a.mp4" ∧
    (imageConvert demoEnv
        { inputPath := "/in/a.mp4", outputPath := "/out/a.mp4",
          outputFormat := "mp4", overwriteOutput := false }).encodeInvoked = false := by
  have h := claim_c4_already_exists_blocks_item demoEnv
    { inputPath := "/in/a.mp4", outputPath := "/out/a.mp4",
      outputFormat := "mp4", overwriteOutput := false } rfl (by decide)
  have hv := h.1 (by decide) (by decide)
  have hi := h.2.1 rfl rfl (by decide)
  exact ⟨hv.1, hv.2, hi.1, hi.2⟩

theorem runOp_preserves_empty (env : Env) (s : ServiceState) (op : SvcOp)
    (h : s.activeConversions = []) :
    (runOp env s op).activeConversions = [] := by
  cases op with
  | batch req => exact h
  | single job => exact h
  | cancel id =>
    simp only [runOp, cancelConversion]
    rw [if_neg (by simp [h])]
    exact h

theorem runOps_active_empty (env : Env) (ops : List SvcOp) :
    (runOps env ops).activeConversions = [] := by
  unfold runOps
  suffices h : ∀ s : ServiceState, s.activeConversions = [] →
      (ops.foldl (runOp env) s).activeConversions = [] from h initialState rfl
  induction ops with
  | nil => intro s hs; exact hs
  | cons op rest ih =>
    intro s hs
    exact ih (runOp env s op) (runOp_preserves_empty env s op hs)

/-- C6: after any sequence of public service operations from the freshly
constructed service, the active-conversions registry is empty — no
conversion path ever registers an entry — so `CancelConversion` returns the
not-found error for every id and leaves the state unchanged (it is a total
function: it never panics), and a batch conversion run after the cancel is
exactly the batch conversion of the same request without it. -/
theorem claim_c6_cancel_always_not_found (env : Env) (ops : List SvcOp) (id : Nat) :
    (runOps env ops).activeConversions = [] ∧
    cancelConversion (runOps env ops) id
      = (runOps env ops,
         Except.error ("conversion " ++ toString id ++ " not found or already completed")) ∧
    (∀ req : BatchConversionRequest,
      (convertBatchSvc env (cancelConversion (runOps env ops) id).1 req).2
        = convertBatch env req) := by
  have h := runOps_active_empty env ops
  refine ⟨h, ?_, fun req => rfl⟩
  unfold cancelConversion
  rw [if_neg (by simp [h])]


theorem getFileInfo_type (env : Env) (p : String) (info : FileInfo)
    (h : getFileInfo env p = Except.ok info) :
    info.type = GetFileType (toLowerStr (extOf p)) := by
  unfold getFileInfo at h
  split at h
  · exact absurd h (by simp)
  · exact absurd h (by simp)
  · split at h
    · exact absurd h (by simp)
    · cases h
      rfl

theorem GetFileType_cases (e : String) :
    GetFileType e = FileTypeVideo ∨ GetFileType e = FileTypeImage ∨
      GetFileType e = FileTypeUnknown := by
  unfold GetFileType
  split
  · exact Or.inl rfl
  · split
    · exact Or.inr (Or.inl rfl)
    · exact Or.inr (Or.inr rfl)

theorem resolved_type_ne_empty (env : Env) (p : String) (info : FileInfo)
    (h : getFileInfo env p = Except.ok info) (hu : info.type ≠ FileTypeUnknown) :
    info.type ≠ "" := by
  have ht := getFileInfo_type env p info h
  rcases GetFileType_cases (toLowerStr (extOf p)) with hv | hi | hk
  · rw [ht, hv]; decide
  · rw [ht, hi]; decide
  · exact absurd (ht.trans hk) hu

/-- While the required-category variable still holds its zero value `""` and
the index is past 0, no path can validate: every resolved known-category
file fails the mixed-types comparison against `""`. -/
theorem validateScanAux_empty_firstType (env : Env) :
    ∀ (ps : List String) (i : Nat) (files : List FileInfo) (errs : List String),
      i ≠ 0 →
      (validateScanAux env i ps (files, errs, "")).1 = files := by
  intro ps
  induction ps with
  | nil => intro i files errs hi; rfl
  | cons p rest ih =>
    intro i files errs hi
    rw [validateScanAux]
    cases hgf : getFileInfo env p with
    | error e =>
      exact ih (i + 1) files _ (by omega)
    | ok info =>
      dsimp only
      by_cases hu : info.type = FileTypeUnknown
      · rw [if_pos hu]
        exact ih (i + 1) files _ (by omega)
      · rw [if_neg hu, if_neg hi]
        rw [if_pos (resolved_type_ne_empty env p info hgf hu)]
        exact ih (i + 1) files _ (by omega)

/-- Once the required category is fixed to `t` and the index is past 0,
every file the scan appends has category `t`. -/
theorem validateScanAux_members (env : Env) :
    ∀ (ps : List String) (i : Nat) (files : List FileInfo) (errs : List String)
      (t : String), i ≠ 0 →
      ∀ f ∈ (validateScanAux env i ps (files, errs, t)).1, f ∈ files ∨ f.type = t := by
  intro ps
  induction ps with
  | nil => intro i files errs t hi f hf; exact Or.inl hf
  | cons p rest ih =>
    intro i files errs t hi f hf
    rw [validateScanAux] at hf
    cases hgf : getFileInfo env p with
    | error e =>
      rw [hgf] at hf
      exact ih (i + 1) files _ t (by omega) f hf
    | ok info =>
      rw [hgf] at hf
      dsimp only at hf
      by_cases hu : info.type = FileTypeUnknown
      · rw [if_pos hu] at hf
        exact ih (i + 1) files _ t (by omega) f hf
      · rw [if_neg hu, if_neg hi] at hf
        by_cases hd : info.type ≠ t
        · rw [if_pos hd] at hf
          exact ih (i + 1) files _ t (by omega) f hf
        · rw [if_neg hd] at hf
          have hsame : info.type = t := by
            by_contra hcon
            exact hd hcon
          rcases ih (i + 1) (files ++ [info]) _ t (by omega) f hf with hmem | htype
          · rcases List.mem_append.mp hmem with h1 | h2
            · exact Or.inl h1
            · right
              rw [List.mem_singleton.mp h2]
              exact hsame
          · exact Or.inr htype

set_option maxRecDepth 8192 in
/-- C2 counterexample: the claim says that when the first path fails to
resolve, the required category is taken from the first path that does
resolve, so `["bad", "a.mp4", "b.mp4"]` should validate both videos; on the
code the required category is only assigned at index 0, both videos fail the
mixed-types comparison against the unset category, and the whole call
fails. -/
theorem claim_c2_counterexample :
    getFileInfo demoEnv "bad" = Except.error "file not found: bad" ∧
    getFileInfo demoEnv "a.mp4"
      = Except.ok
          { path := "a.mp4", name := "a.mp4", extension := ".mp4",
            size := 100, type := "video" } ∧
    getFileInfo demoEnv "b.mp4"
      = Except.ok
          { path := "b.mp4", name := "b.mp4", extension := ".mp4",
            size := 100, type := "video" } ∧
    (validateFiles demoEnv ["bad", "a.mp4", "b.mp4"]).isOk = false ∧
    validateFiles demoEnv ["bad", "a.mp4", "b.mp4"]
      = Except.error ("no valid files found: bad: file not found: bad; "
          ++ "a.mp4: mixed file types not allowed (expected , got video); "
          ++ "b.mp4: mixed file types not allowed (expected , got video)") := by
  refine ⟨by decide, by decide, by decide, by decide, by decide⟩

/-- C2 (amended): the category of the path at index 0 — not of the first
successfully-resolved path — becomes the batch's required category.  When
the path at index 0 fails to resolve, or resolves with unknown category, the
required category keeps its zero value, every subsequently resolved file
fails the mixed-types check, and the whole call fails; when the path at
index 0 resolves with a known category, every validated file has that
category. -/
theorem claim_c2_required_category_from_index0 (env : Env) (p : String)
    (rest : List String) :
    (∀ e, getFileInfo env p = Except.error e →
      (validateFiles env (p :: rest)).isOk = false) ∧
    (∀ info, getFileInfo env p = Except.ok info → info.type = FileTypeUnknown →
      (validateFiles env (p :: rest)).isOk = false) ∧
    (∀ info files, getFileInfo env p = Except.ok info →
      info.type ≠ FileTypeUnknown →
      validateFiles env (p :: rest) = Except.ok files →
      ∀ f ∈ files, f.type = info.type) := by
  refine ⟨fun e he => ?_, fun info he hu => ?_, fun info files he hu hok => ?_⟩
  · unfold validateFiles
    rw [if_neg (by simp)]
    rw [validateScanAux, he]
    dsimp only
    rw [validateScanAux_empty_firstType env rest 1 [] _ (by omega)]
    rw [if_pos (by rfl)]
    rfl
  · unfold validateFiles
    rw [if_neg (by simp)]
    rw [validateScanAux, he]
    dsimp only
    rw [if_pos hu]
    rw [validateScanAux_empty_firstType env rest 1 [] _ (by omega)]
    rw [if_pos (by rfl)]
    rfl
  · intro f hf
    unfold validateFiles at hok
    rw [if_neg (by simp)] at hok
    rw [validateScanAux, he] at hok
    dsimp only at hok
    rw [if_neg hu, if_pos rfl] at hok
    split at hok
    · exact absurd hok (by simp)
    case _ hne =>
      have hfiles : files = (validateScanAux env 1 rest ([info], [], info.type)).1 := by
        cases hok
        rfl
      rw [hfiles] at hf
      rcases validateScanAux_members env rest 1 [info] [] info.type (by omega) f hf with
        hmem | htype
      · rw [List.mem_singleton.mp hmem]
      · exact htype

/-- C2 witness: the amended theorem applied in the demonstration world — a
missing index-0 path makes the whole call fail, and with a valid index-0
video every validated file is a video. -/
theorem claim_c2_witness :
    (validateFiles demoEnv ["bad", "a.mp4", "b.mp4"]).isOk = false ∧
    (∀ f ∈ ([{ path := "a.mp4", name := "a.mp4", extension := ".mp4",
               size := 100, type := "video" },
             { path := "b.mp4", name := "b.mp4", extension := ".mp4",
               size := 100, type := "video" }] : List FileInfo), f.type = "video") := by
  constructor
  · exact (claim_c2_required_category_from_index0 demoEnv "bad" ["a.mp4", "b.mp4"]).1
      "file not found: bad" (by decide)
  · exact (claim_c2_required_category_from_index0 demoEnv "a.mp4" ["b.mp4"]).2.2
      { path := "a.mp4", name := "a.mp4", extension := ".mp4", size := 100, type := "video" }
      _ (by decide) (by decide) (by decide)


/-- Each scanned path contributes exactly one entry: either a valid
`FileInfo` or a per-path error message. -/
theorem validateScanAux_lengths (env : Env) :
    ∀ (ps : List String) (i : Nat) (files : List FileInfo) (errs : List String)
      (t : String),
      (validateScanAux env i ps (files, errs, t)).1.length
          + (validateScanAux env i ps (files, errs, t)).2.1.length
        = files.length + errs.length + ps.length := by
  intro ps
  induction ps with
  | nil => intro i files errs t; simp [validateScanAux]
  | cons p rest ih =>
    intro i files errs t
    rw [validateScanAux]
    cases hgf : getFileInfo env p with
    | error e =>
      rw [ih]
      simp
      omega
    | ok info =>
      dsimp only
      by_cases hu : info.type = FileTypeUnknown
      · rw [if_pos hu, ih]
        simp
        omega
      · rw [if_neg hu]
        by_cases hz : i = 0
        · rw [if_pos hz, ih]
          simp
          omega
        · rw [if_neg hz]
          by_cases hd : info.type ≠ t
          · rw [if_pos hd, ih]
            simp
            omega
          · rw [if_neg hd, ih]
            simp
            omega

/-- C3 counterexample: the claim says `ValidateFiles` returns all valid
`FileInfo` entries together with all per-path error messages on partial
failure; on the code, a partial failure produces a per-path message in the
internal accumulator (it is only logged), while the call returns just the
valid list — Go `(files, nil)` — with no error messages in the returned
value. -/
theorem claim_c3_counterexample :
    (validateScanAux demoEnv 0 ["a.mp4", "bad"] ([], [], "")).2.1
      = ["bad: file not found: bad"] ∧
    validateFiles demoEnv ["a.mp4", "bad"]
      = Except.ok [{ path := "a.mp4", name := "a.mp4", extension := ".mp4",
                     size := 100, type := "video" }] := by
  refine ⟨by decide, by decide⟩

/-- C3 (amended): on partial failure `ValidateFiles` returns exactly the
valid `FileInfo` entries — the per-path error messages are only accumulated
internally and logged, one entry per input path between the two lists, and
are returned (joined into the error) only when zero files validate — so the
call never fails while at least one file validates and returns an error
exactly when zero files validate, which includes the empty-input case. -/
theorem claim_c3_partial_failure_contract (env : Env) (paths : List String) :
    (validateScanAux env 0 paths ([], [], "")).1.length
        + (validateScanAux env 0 paths ([], [], "")).2.1.length = paths.length ∧
    ((validateScanAux env 0 paths ([], [], "")).1 ≠ [] →
      validateFiles env paths = Except.ok (validateScanAux env 0 paths ([], [], "")).1) ∧
    ((validateScanAux env 0 paths ([], [], "")).1 = [] →
      (validateFiles env paths).isOk = false) := by
  refine ⟨?_, fun hne => ?_, fun hemp => ?_⟩
  · simpa using validateScanAux_lengths env paths 0 [] [] ""
  · have hpe : paths ≠ [] := by
      intro hnil
      rw [hnil] at hne
      exact hne rfl
    unfold validateFiles
    rw [if_neg (by simpa using hpe)]
    rw [if_neg (by simpa using hne)]
  · unfold validateFiles
    by_cases hp : paths.isEmpty
    · rw [if_pos hp]
      rfl
    · rw [if_neg hp]
      rw [if_pos (by simpa using hemp)]
      rfl

/-- C3 witness: the contract applied in the demonstration world to a batch
with one missing path and one valid video: the call succeeds with exactly
the valid entry, and the two input paths are split one-to-one between the
valid list and the error list. -/
theorem claim_c3_witness :
    validateFiles demoEnv ["a.mp4", "bad"]
      = Except.ok [{ path := "a.mp4", name := "a.mp4", extension := ".mp4",
                     size := 100, type := "video" }] ∧
    (validateScanAux demoEnv 0 ["a.mp4", "bad"] ([], [], "")).1.length
        + (validateScanAux demoEnv 0 ["a.mp4", "bad"] ([], [], "")).2.1.length = 2 := by
  have h := claim_c3_partial_failure_contract demoEnv ["a.mp4", "bad"]
  refine ⟨?_, h.1⟩
  have hok := h.2.1 (by decide)
  rw [hok]
  decide


theorem lineProgress_bounds (d : ℚ) (hd : 0 < d) (t : Nat) :
    0 ≤ lineProgress d t ∧ lineProgress d t ≤ 100 := by
  unfold lineProgress clamp100
  split
  · constructor <;> norm_num
  case _ h =>
    constructor
    · have h1 : (0 : ℚ) ≤ (t : ℚ) / 1000000 := by positivity
      have h2 : (0 : ℚ) ≤ ((t : ℚ) / 1000000) / d := div_nonneg h1 hd.le
      have h3 : (0 : ℚ) ≤ (100 : ℚ) := by norm_num
      exact mul_nonneg h2 h3
    · exact le_of_not_lt h

/-- C7 (amended): for a successful conversion with probed duration > 0, the
progress-callback sequence is non-empty, its final element is the single
completion call carrying 100, and every value lies in [0, 100] (scanner
values are clamped at 100 — and a clamped intermediate value may itself
equal 100, see the counterexample). -/
theorem claim_c7_progress_sequence (env : Env) (o : ConvertOptions) (d : ℚ)
    (hd : env.probedDuration o.inputPath = some d) (hpos : 0 < d)
    (hok : env.runRes (convertArgs o) = none) :
    (ffmpegConvertRun env o).2 ≠ [] ∧
    (ffmpegConvertRun env o).2.getLast? = some 100 ∧
    ∀ x ∈ (ffmpegConvertRun env o).2, 0 ≤ x ∧ x ≤ 100 := by
  unfold ffmpegConvertRun
  dsimp only
  rw [hd, hok]
  dsimp only [Option.getD]
  rw [if_pos hpos]
  refine ⟨by simp, by simp, fun x hx => ?_⟩
  rcases List.mem_append.mp hx with hm | hl
  · unfold ffmpegProgressSeq at hm
    rcases List.mem_map.mp hm with ⟨t, _, rfl⟩
    exact lineProgress_bounds d hpos t
  · rw [List.mem_singleton.mp hl]
    norm_num

/-- C7 witness: the theorem applied in the demonstration world — probed
duration 2s, one mid-stream line at 1s — gives the sequence [50, 100]. -/
theorem claim_c7_witness :
    demoEnv.probedDuration "/in/a.mp4" = some 2 ∧ (0 : ℚ) < 2 ∧
    (ffmpegConvertRun demoEnv
        { inputPath := "/in/a.mp4", outputPath := "/out/a.webm", overwrite := true,
          videoCodec := "libvpx-vp9", videoBitrate := "", resolution := "",
          frameRate := 0, audioCodec := "libopus", audioBitrate := "",
          sampleRate := 0 }).2.getLast? = some 100 ∧
    ∀ x ∈ (ffmpegConvertRun demoEnv
        { inputPath := "/in/a.mp4", outputPath := "/out/a.webm", overwrite := true,
          videoCodec := "libvpx-vp9", videoBitrate := "", resolution := "",
          frameRate := 0, audioCodec := "libopus", audioBitrate := "",
          sampleRate := 0 }).2, 0 ≤ x ∧ x ≤ 100 := by
  have h := claim_c7_progress_sequence demoEnv
    { inputPath := "/in/a.mp4", outputPath := "/out/a.webm", overwrite := true,
      videoCodec := "libvpx-vp9", videoBitrate := "", resolution := "",
      frameRate := 0, audioCodec := "libopus", audioBitrate := "",
      sampleRate := 0 } 2 rfl (by norm_num) rfl
  exact ⟨rfl, by norm_num, h.2.1, h.2.2⟩

/-- C7 counterexample: the claim as stated says the sequence ends with
exactly one call carrying the value 100; with probed duration 2s and a
progress line at 4s the clamped intermediate value is already 100, so the
sequence is [100, 100] and two calls carry the value 100. -/
theorem claim_c7_counterexample :
    (ffmpegConvertRun demoEnv
        { inputPath := "/in/over.mp4", outputPath := "/out/over.webm",
          overwrite := true, videoCodec := "libvpx-vp9", videoBitrate := "",
          resolution := "", frameRate := 0, audioCodec := "libopus",
          audioBitrate := "", sampleRate := 0 }).2 = [100, 100] ∧
    (ffmpegConvertRun demoEnv
        { inputPath := "/in/over.mp4", outputPath := "/out/over.webm",
          overwrite := true, videoCodec := "libvpx-vp9", videoBitrate := "",
          resolution := "", frameRate := 0, audioCodec := "libopus",
          audioBitrate := "", sampleRate := 0 }).2.count 100 ≠ 1 := by
  have hline : lineProgress 2 4000000 = 100 := by
    unfold lineProgress clamp100
    norm_num
  have hseq : (ffmpegConvertRun demoEnv
      { inputPath := "/in/over.mp4", outputPath := "/out/over.webm",
        overwrite := true, videoCodec := "libvpx-vp9", videoBitrate := "",
        resolution := "", frameRate := 0, audioCodec := "libopus",
        audioBitrate := "", sampleRate := 0 }).2
      = [lineProgress 2 4000000] ++ [100] := rfl
  constructor
  · rw [hseq, hline]
    rfl
  · rw [hseq, hline]
    decide

/-- C8: `GenerateOutputPath` joins the output directory with
`baseName ++ "." ++ format` (leading dot stripped from the format), where
the base name is the custom name exactly in custom naming mode with a
non-empty custom name and otherwise the input filename with its extension
stripped; in particular the two concrete examples of the spec hold. -/
theorem claim_c8_generate_output_path :
    (∀ inputPath outputDir fmt name : String, name ≠ "" →
      generateOutputPath inputPath outputDir fmt NamingModeCustom name
        = joinPath outputDir (name ++ "." ++ trimLeadingDot fmt)) ∧
    (∀ inputPath outputDir fmt mode name : String, mode ≠ NamingModeCustom →
      generateOutputPath inputPath outputDir fmt mode name
        = joinPath outputDir
            (trimSuffixStr (baseOf inputPath) (extOf inputPath)
              ++ "." ++ trimLeadingDot fmt)) ∧
    (∀ inputPath outputDir fmt : String,
      generateOutputPath inputPath outputDir fmt NamingModeCustom ""
        = generateOutputPath inputPath outputDir fmt NamingModeOriginal "") ∧
    generateOutputPath "/in/movie.mov" "/out" "mp4" NamingModeOriginal ""
      = "/out/movie.mp4" ∧
    generateOutputPath "/in/movie.mov" "/out" "mp4" NamingModeCustom "clip1"
      = "/out/clip1.mp4" := by
  refine ⟨fun inputPath outputDir fmt name hname => ?_,
          fun inputPath outputDir fmt mode name hmode => ?_,
          fun inputPath outputDir fmt => ?_, by decide, by decide⟩
  · unfold generateOutputPath
    dsimp only
    rw [if_pos rfl, if_pos hname]
  · unfold generateOutputPath
    dsimp only
    rw [if_neg hmode]
  · unfold generateOutputPath
    dsimp only
    rw [if_pos rfl, if_neg (by simp), if_neg (by decide)]

/-- C8 witness: the custom-name clause applied at a concrete input. -/
theorem claim_c8_witness :
    ("clip1" : String) ≠ "" ∧
    generateOutputPath "/x/v.avi" "/o" "webm" NamingModeCustom "clip1"
      = joinPath "/o" ("clip1" ++ "." ++ trimLeadingDot "webm") := by
  refine ⟨by decide, ?_⟩
  exact claim_c8_generate_output_path.1 "/x/v.avi" "/o" "webm" "clip1" (by decide)

/-- C9: the static codec table maps mp4 to libx264/aac and webm to
libvpx-vp9/libopus, an unrecognized target yields no explicit codec (the
constructed argument list then carries no codec flags), and a gif target
bypasses the generic codec path: the adapter's single transcoder invocation
uses the two-pass palette filter graph at fixed frame rate 10 and scale 480
instead of `convertArgs`. -/
theorem claim_c9_codecs_and_gif_path (env : Env) (job : ConversionJob) :
    GetDefaultCodec "mp4" = ("libx264", "aac") ∧
    GetDefaultCodec "webm" = ("libvpx-vp9", "libopus") ∧
    (∀ f : String,
      trimLeadingDot (toLowerStr f) ∉ (["mp4", "webm", "avi", "mkv", "mov"] : List String) →
      GetDefaultCodec f = ("", "")) ∧
    (∀ o : ConvertOptions, o.videoCodec = "" → o.audioCodec = "" →
      o.videoBitrate = "" → o.resolution = "" → o.frameRate ≤ 0 →
      o.audioBitrate = "" → o.sampleRate ≤ 0 →
      convertArgs o = (if o.overwrite then ["-y"] else ["-n"])
        ++ ["-i", o.inputPath, "-progress", "pipe:1", "-nostats", o.outputPath]) ∧
    (env.stat job.inputPath ≠ StatRes.missing →
      env.mkdirOk (dirOf job.outputPath) = true →
      (!job.overwriteOutput && statOk env job.outputPath) = false →
      trimLeadingDot (toLowerStr (extOf job.outputPath)) = "gif" →
      (videoConvert env job).calls
        = [gifArgs job.inputPath job.outputPath job.overwriteOutput]) ∧
    (env.stat job.inputPath ≠ StatRes.missing →
      env.mkdirOk (dirOf job.outputPath) = true →
      (!job.overwriteOutput && statOk env job.outputPath) = false →
      trimLeadingDot (toLowerStr (extOf job.outputPath)) ≠ "gif" →
      (videoConvert env job).calls = [convertArgs (videoOpts job)] ∧
      (videoOpts job).videoCodec
          = (GetDefaultCodec (trimLeadingDot (toLowerStr (extOf job.outputPath)))).1 ∧
      (videoOpts job).audioCodec
          = (GetDefaultCodec (trimLeadingDot (toLowerStr (extOf job.outputPath)))).2) ∧
    gifFilter ∈ gifArgs job.inputPath job.outputPath job.overwriteOutput ∧
    gifFilter
      = "fps=10,scale=480:-1:flags=lanczos,split[s0][s1];[s0]palettegen[p];[s1][p]paletteuse" := by
  refine ⟨rfl, rfl, fun f hf => ?_, fun o h1 h2 h3 h4 h5 h6 h7 => ?_,
          fun hin hmk hpass hgif => ?_, fun hin hmk hpass hgif => ?_, ?_, rfl⟩
  · unfold GetDefaultCodec
    simp only [List.mem_cons, List.mem_singleton, not_or] at hf
    obtain ⟨n1, n2, n3, n4, n5, _⟩ := hf
    rw [if_neg n1, if_neg n2, if_neg n3, if_neg n4, if_neg n5]
  · unfold convertArgs
    dsimp only
    have hfr : ¬(o.frameRate > 0) := not_lt.mpr h5
    have hsr : ¬(o.sampleRate > 0) := not_lt.mpr h7
    have hc1 : ¬(o.videoCodec ≠ "") := by simp [h1]
    have hc2 : ¬(o.audioCodec ≠ "") := by simp [h2]
    have hc3 : ¬(o.videoBitrate ≠ "") := by simp [h3]
    have hc4 : ¬(o.resolution ≠ "") := by simp [h4]
    have hc6 : ¬(o.audioBitrate ≠ "") := by simp [h6]
    rw [if_neg hc1, if_neg hc3, if_neg hc4, if_neg hfr, if_neg hc2,
        if_neg hc6, if_neg hsr]
    simp
  · unfold videoConvert
    dsimp only
    rw [if_neg hin, if_neg (by simp [hmk]), if_neg (by simp [hpass]), if_pos hgif]
    split <;> rfl
  · unfold videoConvert
    dsimp only
    rw [if_neg hin, if_neg (by simp [hmk]), if_neg (by simp [hpass]), if_neg hgif]
    refine ⟨?_, rfl, rfl⟩
    split <;> rfl
  · unfold gifArgs
    cases job.overwriteOutput <;> simp

/-- C9 witness: in the demonstration world, a gif job calls only the palette
path and an mp4 job calls only the generic path with the mp4 codec pair. -/
theorem claim_c9_witness :
    (videoConvert demoEnv
        { inputPath := "/in/a.mp4", outputPath := "/out/a.gif",
          outputFormat := "gif", overwriteOutput := true }).calls
      = [gifArgs "/in/a.mp4" "/out/a.gif" true] ∧
    (videoConvert demoEnv
        { inputPath := "/in/a.mp4", outputPath := "/out/a.mp4",
          outputFormat := "mp4", overwriteOutput := true }).calls
      = [convertArgs (videoOpts
          { inputPath := "/in/a.mp4", outputPath := "/out/a.mp4",
            outputFormat := "mp4", overwriteOutput := true })] ∧
    (videoOpts
        { inputPath := "/in/a.mp4", outputPath := "/out/a.mp4",
          outputFormat := "mp4", overwriteOutput := true }).videoCodec = "libx264" := by
  constructor
  · exact (claim_c9_codecs_and_gif_path demoEnv
      { inputPath := "/in/a.mp4", outputPath := "/out/a.gif",
        outputFormat := "gif", overwriteOutput := true }).2.2.2.2.1
      (by decide) rfl rfl (by decide)
  constructor
  · exact ((claim_c9_codecs_and_gif_path demoEnv
      { inputPath := "/in/a.mp4", outputPath := "/out/a.mp4",
        outputFormat := "mp4", overwriteOutput := true }).2.2.2.2.2.1
      (by decide) rfl rfl (by decide)).1
  · decide

end Zenfile
